import Mathlib

/-!
Shallow embedding of `src/autheos_message.py` (an animated message overlay
program) and proofs about its tokenizer, reveal controller, exit scheduling,
reveal-position layout policy and window orchestrator.

Strings are modelled as `List Char` (one entry per Unicode code point, as in
Python `str` iteration). Python float quantities that the program only
compares, clamps and divides (speed, exit-after) are modelled as exact
rationals `ℚ`; Python `int()` applied to a positive quotient is modelled as
`Int.floor`. GTK / layer-shell / Pango are external capabilities: the Pango
pixel-width measurement is a parameter `measure : List Char → ℤ`, and
layer-shell anchoring success is a parameter of the orchestrator context.
-/

/-- Whitespace predicate for the Python regex `\s` (ASCII range: space, tab,
newline, carriage return, vertical tab, form feed). -/
def pyIsSpace (c : Char) : Bool :=
  c.toNat = 32 || c.toNat = 9 || c.toNat = 10 || c.toNat = 13 ||
    c.toNat = 11 || c.toNat = 12

/-- Animation mode, `--mode {char|word}`. -/
inductive Mode where
  | char
  | word
deriving DecidableEq

/-- One step of `re.findall(r"\S+\s*", message)`: skip characters that cannot
start a match, then take a maximal run of non-whitespace followed by a maximal
run of whitespace as one token.  The structural `fuel` argument bounds the
recursion by the remaining length of the input (each emitted token consumes at
least one character). -/
def findWordsAux : Nat → List Char → List (List Char)
  | 0, _ => []
  | _ + 1, [] => []
  | fuel + 1, c :: cs =>
    if pyIsSpace c then
      findWordsAux fuel cs
    else
      let word := cs.takeWhile (fun x => !pyIsSpace x)
      let rest1 := cs.dropWhile (fun x => !pyIsSpace x)
      let sp := rest1.takeWhile pyIsSpace
      let rest2 := rest1.dropWhile pyIsSpace
      (c :: (word ++ sp)) :: findWordsAux fuel rest2

/-- Model of `re.findall(r"\S+\s*", message)` from `tokenize` (src line 132). -/
def findWords (l : List Char) : List (List Char) :=
  findWordsAux l.length l

/-- Model of `tokenize(message, mode)` (src lines 129-132): char mode is
`list(message)`, word mode is `re.findall(r"\S+\s*", message)`. -/
def tokenize (message : List Char) (mode : Mode) : List (List Char) :=
  match mode with
  | .char => message.map (fun c => [c])
  | .word => findWords message

/-! ### Tokenizer lemmas -/

theorem length_dropWhile_le (p : α → Bool) (l : List α) :
    (l.dropWhile p).length ≤ l.length := by
  induction l with
  | nil => simp
  | cons a l ih =>
    rw [List.dropWhile_cons]
    split
    · exact Nat.le_trans ih (Nat.le_succ _)
    · simp

theorem dropWhile_idem (p : α → Bool) (l : List α) :
    (l.dropWhile p).dropWhile p = l.dropWhile p := by
  induction l with
  | nil => simp
  | cons a l ih =>
    rw [List.dropWhile_cons]
    split
    · exact ih
    · rw [List.dropWhile_cons]
      simp [*]

/-- The function `findWordsAux` does not depend on the fuel once it covers the length. -/
theorem findWordsAux_fuel (fuel₁ fuel₂ : Nat) (l : List Char)
    (h₁ : l.length ≤ fuel₁) (h₂ : l.length ≤ fuel₂) :
    findWordsAux fuel₁ l = findWordsAux fuel₂ l := by
  induction fuel₁ generalizing fuel₂ l with
  | zero =>
    have : l = [] := List.length_eq_zero.mp (Nat.le_zero.mp h₁)
    subst this
    cases fuel₂ <;> rfl
  | succ fuel₁ ih =>
    cases l with
    | nil => cases fuel₂ <;> rfl
    | cons c cs =>
      cases fuel₂ with
      | zero => exact absurd h₂ (by simp)
      | succ fuel₂ =>
        simp only [findWordsAux]
        split
        · exact ih fuel₂ cs (Nat.le_of_succ_le_succ h₁) (Nat.le_of_succ_le_succ h₂)
        · have hrest : (List.dropWhile pyIsSpace
              (cs.dropWhile (fun x => !pyIsSpace x))).length ≤ cs.length :=
            Nat.le_trans (length_dropWhile_le _ _) (length_dropWhile_le _ _)
          rw [ih _ _ (Nat.le_trans hrest (Nat.le_of_succ_le_succ h₁))
              (Nat.le_trans hrest (Nat.le_of_succ_le_succ h₂))]

theorem findWordsAux_flatten (fuel : Nat) (l : List Char)
    (h : l.length ≤ fuel) :
    (findWordsAux fuel l).flatten = l.dropWhile pyIsSpace := by
  induction fuel generalizing l with
  | zero =>
    have : l = [] := List.length_eq_zero.mp (Nat.le_zero.mp h)
    subst this
    rfl
  | succ fuel ih =>
    cases l with
    | nil => rfl
    | cons c cs =>
      simp only [findWordsAux, List.dropWhile_cons]
      split
      · exact ih cs (Nat.le_of_succ_le_succ h)
      · have hrest : (List.dropWhile pyIsSpace
            (cs.dropWhile (fun x => !pyIsSpace x))).length ≤ cs.length :=
          Nat.le_trans (length_dropWhile_le _ _) (length_dropWhile_le _ _)
        rw [List.flatten_cons,
          ih _ (Nat.le_trans hrest (Nat.le_of_succ_le_succ h)),
          dropWhile_idem, List.cons_append, List.append_assoc,
          List.takeWhile_append_dropWhile, List.takeWhile_append_dropWhile]

/-- Concatenating the word tokens gives back the message with its leading
whitespace removed. -/
theorem findWords_flatten (l : List Char) :
    (findWords l).flatten = l.dropWhile pyIsSpace :=
  findWordsAux_flatten l.length l (Nat.le_refl _)

/-- Concatenating the char tokens gives back the message. -/
theorem tokenize_char_flatten (l : List Char) :
    (tokenize l Mode.char).flatten = l := by
  induction l with
  | nil => rfl
  | cons c cs ih =>
    simpa [tokenize] using congrArg (c :: ·) ih

/-- On an all-whitespace input the word tokenizer returns no tokens. -/
theorem findWordsAux_all_space (fuel : Nat) (l : List Char)
    (h : l.length ≤ fuel) (hs : ∀ c ∈ l, pyIsSpace c = true) :
    findWordsAux fuel l = [] := by
  induction fuel generalizing l with
  | zero =>
    have : l = [] := List.length_eq_zero.mp (Nat.le_zero.mp h)
    subst this
    rfl
  | succ fuel ih =>
    cases l with
    | nil => rfl
    | cons c cs =>
      simp only [findWordsAux]
      rw [if_pos (hs c (List.mem_cons_self c cs))]
      exact ih cs (Nat.le_of_succ_le_succ h) (fun x hx => hs x (List.mem_cons_of_mem c hx))

/-- Every word token is a nonempty run of non-whitespace followed by a run of
whitespace. -/
theorem findWordsAux_shape (fuel : Nat) (l : List Char)
    (h : l.length ≤ fuel) :
    ∀ t ∈ findWordsAux fuel l, ∃ w s, t = w ++ s ∧ w ≠ [] ∧
      (∀ c ∈ w, pyIsSpace c = false) ∧ (∀ c ∈ s, pyIsSpace c = true) := by
  induction fuel generalizing l with
  | zero =>
    have : l = [] := List.length_eq_zero.mp (Nat.le_zero.mp h)
    subst this
    intro t ht
    exact absurd ht (by simp [findWordsAux])
  | succ fuel ih =>
    cases l with
    | nil =>
      intro t ht
      exact absurd ht (by simp [findWordsAux])
    | cons c cs =>
      intro t ht
      simp only [findWordsAux] at ht
      by_cases hc : pyIsSpace c
      · rw [if_pos hc] at ht
        exact ih cs (Nat.le_of_succ_le_succ h) t ht
      · rw [if_neg hc] at ht
        rcases List.mem_cons.mp ht with heq | hmem
        · refine ⟨c :: cs.takeWhile (fun x => !pyIsSpace x),
            (cs.dropWhile (fun x => !pyIsSpace x)).takeWhile pyIsSpace,
            by simpa using heq, by simp, ?_, ?_⟩
          · intro x hx
            rcases List.mem_cons.mp hx with rfl | hx
            · exact Bool.eq_false_iff.mpr hc
            · have := List.mem_takeWhile_imp hx
              simpa using this
          · intro x hx
            exact List.mem_takeWhile_imp hx
        · have hrest : (List.dropWhile pyIsSpace
              (cs.dropWhile (fun x => !pyIsSpace x))).length ≤ cs.length :=
            Nat.le_trans (length_dropWhile_le _ _) (length_dropWhile_le _ _)
          exact ih _ (Nat.le_trans hrest (Nat.le_of_succ_le_succ h)) t hmem

/-! ### Reveal controller (MessageWindow) embedding -/

/-- Choices of `--reveal-position`: left-to-center, center, left. -/
inductive RevealPosition where
  | leftToCenter
  | center
  | left
deriving DecidableEq

/-- Parsed command-line configuration (src `parse_args`, lines 72-126).
Colors and font size are opaque to the claims and omitted; `speed` and
`exit_after` are modelled as exact rationals. -/
structure Args where
  message : List Char
  mode : Mode
  speed : ℚ
  exit_after : ℚ
  reveal_position : RevealPosition
  all_monitors : Bool

/-- GTK horizontal alignment values used by the source. -/
inductive Align where
  | fill
  | center
deriving DecidableEq

/-- GTK justification values used by the source. -/
inductive Justify where
  | left
  | center
deriving DecidableEq

/-- The slice of `Gtk.Label` state the program manipulates: `set_halign`,
`set_xalign`, `set_justify`, `set_size_request` and `set_text`. -/
structure Label where
  halign : Align
  xalign : ℚ
  justify : Justify
  sizeRequest : ℤ × ℤ
  text : List Char
deriving DecidableEq

/-- Defaults of `Gtk.Label(label="")`: halign FILL, xalign 0.5, justify LEFT,
no size request (-1, -1), empty text (src line 225). -/
def newLabel : Label :=
  { halign := .fill
    xalign := 1/2
    justify := .left
    sizeRequest := (-1, -1)
    text := [] }

/-- Model of `_apply_reveal_position` / `_reserve_final_width` acting on the label
(src lines 234-267).  `measure` stands for
`create_pango_layout(message).get_pixel_size()[0]`. -/
def applyRevealLabel (measure : List Char → ℤ) (args : Args)
    (lab : Label) (is_animation_done : Bool) : Label :=
  match args.reveal_position with
  | .center =>
    { lab with
      halign := .center
      xalign := 1/2
      justify := .center
      sizeRequest := (-1, -1) }
  | .left =>
    { lab with
      halign := .center
      xalign := 0
      justify := .left
      sizeRequest := (-1, -1) }
  | .leftToCenter =>
    if is_animation_done then
      { lab with
        halign := .center
        xalign := 1/2
        justify := .center
        sizeRequest := (-1, -1) }
    else
      let lab1 := { lab with halign := .center, xalign := 0, justify := .left }
      let width := measure args.message
      if 0 < width then { lab1 with sizeRequest := (width, -1) } else lab1

/-- Per-window animation state (src `MessageWindow.__init__`, lines 136-158). -/
structure MessageWindow where
  args : Args
  tokens : List (List Char)
  index : Nat
  current_text : List Char
  exit_scheduled : Bool
  layer_shell_enabled : Bool
  label : Label

/-- Model of `MessageWindow.__init__`: tokens from `tokenize`, index 0, empty text,
flags cleared, label built then laid out with `_apply_reveal_position(False)`
(src lines 136-158, 208-232).  `ls` is the outcome of the external
layer-shell setup. -/
def initWindow (measure : List Char → ℤ) (args : Args) (ls : Bool) :
    MessageWindow :=
  { args := args
    tokens := tokenize args.message args.mode
    index := 0
    current_text := []
    exit_scheduled := false
    layer_shell_enabled := ls
    label := applyRevealLabel measure args newLabel false }

/-- Model of `_apply_reveal_position(is_animation_done)` on the window. -/
def apply_reveal_position (measure : List Char → ℤ) (w : MessageWindow)
    (is_animation_done : Bool) : MessageWindow :=
  { w with label := applyRevealLabel measure w.args w.label is_animation_done }

/-- Model of `_schedule_exit_if_needed` (src lines 307-311): returns the updated window
and the delay in ms of the one-shot exit timer scheduled, if any.  Python
`int(exit_after * 1000)` truncates; the argument is positive on the scheduling
path, so truncation is `Int.floor`. -/
def scheduleExitIfNeeded (w : MessageWindow) : MessageWindow × Option ℤ :=
  if w.args.exit_after ≤ 0 ∨ w.exit_scheduled then (w, none)
  else ({ w with exit_scheduled := true }, some ⌊w.args.exit_after * 1000⌋)

/-- Model of `max(1, int(1000 / max(self.args.speed, 0.01)))` (src line 288).  The
quotient is positive, so Python `int()` truncation is `Int.floor`. -/
def intervalMs (speed : ℚ) : ℤ :=
  max 1 ⌊(1000 : ℚ) / max speed (1/100)⌋

/-- Model of `start_animation` (src lines 282-289): on empty tokens apply the final
layout and maybe schedule exit, with no recurring timer; otherwise schedule
the recurring tick timer.  Result: (window, recurring-timer period if
scheduled, exit-timer delay if scheduled). -/
def start_animation (measure : List Char → ℤ) (w : MessageWindow) :
    MessageWindow × Option ℤ × Option ℤ :=
  if w.tokens = [] then
    let p := scheduleExitIfNeeded (apply_reveal_position measure w true)
    (p.1, none, p.2)
  else
    (w, some (intervalMs w.args.speed), none)

/-- Model of `_tick` (src lines 291-305): returns (window, value returned to GLib —
`true` keeps the recurring timer alive — , exit-timer delay if scheduled). -/
def tick (measure : List Char → ℤ) (w : MessageWindow) :
    MessageWindow × Bool × Option ℤ :=
  if w.tokens.length ≤ w.index then
    let p := scheduleExitIfNeeded (apply_reveal_position measure w true)
    (p.1, false, p.2)
  else
    let text := w.current_text ++ w.tokens.getD w.index []
    let w1 := { w with current_text := text, index := w.index + 1 }
    let w2 := { w1 with label := { w1.label with text := text } }
    if w2.tokens.length ≤ w2.index then
      let p := scheduleExitIfNeeded (apply_reveal_position measure w2 true)
      (p.1, false, p.2)
    else
      (w2, true, none)

/-- Iterate `k` firings of the recurring timer (state part of `_tick`). -/
def iterTicks (measure : List Char → ℤ) : Nat → MessageWindow → MessageWindow
  | 0, w => w
  | k + 1, w => (tick measure (iterTicks measure k w)).1

/-- Iterate `n` invocations of `_schedule_exit_if_needed` on one window, logging the
delays of every exit timer scheduled. -/
def iterScheduleExit (w : MessageWindow) : Nat → MessageWindow × List ℤ
  | 0 => (w, [])
  | n + 1 =>
    let p := iterScheduleExit w n
    let q := scheduleExitIfNeeded p.1
    (q.1, p.2 ++ q.2.toList)

/-- Application-level side effects. -/
inductive AppEffect where
  | quit
deriving DecidableEq

/-- Model of `_exit` (src lines 313-317): the exit timer callback quits the
application (when attached to one) and returns `False` (one-shot). -/
def windowExit (hasApp : Bool) : List AppEffect × Bool :=
  (if hasApp then [AppEffect.quit] else [], false)

/-! ### Window orchestrator (MessageApp) embedding -/

/-- Window identity as the orchestrator sees it: creation id, the monitor it
was created for (none for the fallback window), and whether layer-shell setup
succeeded (`layer_shell_enabled`). -/
structure OrchWindow where
  wid : Nat
  monitor : Option Nat
  layer_shell_enabled : Bool
deriving DecidableEq

/-- External environment of `_build_windows`: the command-line flag, whether
`Gtk4LayerShell` imported, whether `Gdk.Display.get_default()` is non-null,
the result of `monitors.get_item(i)` for each index (none = null item), and
whether `_setup_layer_shell` succeeds on a given monitor. -/
structure OrchCtx where
  all_monitors : Bool
  layerShellAvailable : Bool
  displayAvailable : Bool
  monitorSlots : List (Option Nat)
  anchorOk : Nat → Bool

/-- Model of `MessageWindow.__init__` as the orchestrator sees it (src lines 136-158):
`layer_shell_enabled` is set only when a monitor is given and `Gtk4LayerShell`
is present, to the result of `_setup_layer_shell`. -/
def newOrchWindow (ctx : OrchCtx) (monitor : Option Nat) (wid : Nat) :
    OrchWindow :=
  { wid := wid
    monitor := monitor
    layer_shell_enabled :=
      match monitor with
      | some m => ctx.layerShellAvailable && ctx.anchorOk m
      | none => false }

/-- The `MessageApp` state (src lines 320-325), plus logs of every window created
and every window-id destroyed, used to state the no-leak property. -/
structure AppState where
  windows : List OrchWindow
  animation_started : Bool
  created : List OrchWindow
  destroyed : List Nat
deriving DecidableEq

/-- Model of `MessageApp.__init__`: no windows, animation not started. -/
def initAppState : AppState :=
  { windows := [], animation_started := false, created := [], destroyed := [] }

/-- The monitor loop of `_build_windows` (src lines 341-357): skip null items;
build a window per monitor; on the first window whose layer-shell setup failed,
destroy it and every window built so far, clear the list and stop. -/
def buildLoop (ctx : OrchCtx) : List (Option Nat) → AppState → Nat → AppState × Nat
  | [], s, nid => (s, nid)
  | none :: rest, s, nid => buildLoop ctx rest s nid
  | some m :: rest, s, nid =>
    let w := newOrchWindow ctx (some m) nid
    let s1 := { s with created := s.created ++ [w] }
    if w.layer_shell_enabled = false then
      ({ s1 with
          windows := []
          destroyed := s1.destroyed ++ w.wid :: s1.windows.map OrchWindow.wid },
        nid + 1)
    else
      buildLoop ctx rest { s1 with windows := s1.windows ++ [w] } (nid + 1)

/-- Model of `_build_windows` (src lines 327-360): return at once if windows exist;
run the monitor loop when all-monitors is requested and both the layer-shell
capability and the default display are available; if no window survived,
create exactly one fallback window with no monitor. -/
def build_windows (ctx : OrchCtx) (s : AppState) : AppState :=
  if s.windows ≠ [] then s
  else
    let r :=
      if ctx.all_monitors && ctx.layerShellAvailable && ctx.displayAvailable then
        buildLoop ctx ctx.monitorSlots s 0
      else (s, 0)
    if r.1.windows = [] then
      let fw := newOrchWindow ctx none r.2
      { r.1 with windows := [fw], created := r.1.created ++ [fw] }
    else r.1

/-- Model of `do_activate` (src lines 362-370): build windows, present them all, and —
unless animations were already started — start the animation of every window
and set the flag.  Result: (state, presented window ids, ids of windows whose
`start_animation` was invoked). -/
def do_activate (ctx : OrchCtx) (s : AppState) : AppState × List Nat × List Nat :=
  let s1 := build_windows ctx s
  let presented := s1.windows.map OrchWindow.wid
  if s1.animation_started then (s1, presented, [])
  else ({ s1 with animation_started := true }, presented,
    s1.windows.map OrchWindow.wid)

/-! ### Preservation helper lemmas -/

theorem applyRevealLabel_text (measure : List Char → ℤ) (args : Args)
    (lab : Label) (d : Bool) :
    (applyRevealLabel measure args lab d).text = lab.text := by
  unfold applyRevealLabel
  cases args.reveal_position <;> simp only []
  split
  · rfl
  · split <;> rfl

theorem scheduleExitIfNeeded_index (w : MessageWindow) :
    (scheduleExitIfNeeded w).1.index = w.index := by
  unfold scheduleExitIfNeeded
  split <;> rfl

theorem scheduleExitIfNeeded_text (w : MessageWindow) :
    (scheduleExitIfNeeded w).1.current_text = w.current_text := by
  unfold scheduleExitIfNeeded
  split <;> rfl

theorem scheduleExitIfNeeded_tokens (w : MessageWindow) :
    (scheduleExitIfNeeded w).1.tokens = w.tokens := by
  unfold scheduleExitIfNeeded
  split <;> rfl

theorem scheduleExitIfNeeded_label (w : MessageWindow) :
    (scheduleExitIfNeeded w).1.label = w.label := by
  unfold scheduleExitIfNeeded
  split <;> rfl

/-! ### Claim C1 -/

/-- C1 counterexample: for the message consisting of a space followed by `a`,
word-mode tokenization yields `["a"]`, whose concatenation is not the original
message — the leading space is lost. -/
theorem C1_counterexample :
    tokenize [Char.ofNat 32, Char.ofNat 97] Mode.word = [[Char.ofNat 97]] ∧
      (tokenize [Char.ofNat 32, Char.ofNat 97] Mode.word).flatten ≠
        [Char.ofNat 32, Char.ofNat 97] := by
  decide

/-- C1 (amended): concatenating the full token sequence equals the original
message in char mode; in word mode it equals the original message with its
leading whitespace removed (so it equals the message exactly iff the message
does not start with whitespace). -/
theorem C1_concat_tokens (msg : List Char) :
    (tokenize msg Mode.char).flatten = msg ∧
      (tokenize msg Mode.word).flatten = msg.dropWhile pyIsSpace :=
  ⟨tokenize_char_flatten msg, findWords_flatten msg⟩

/-! ### Claim C8 -/

/-- C8: in word mode every token is one or more non-whitespace characters
followed by zero or more whitespace characters; the tokens concatenate, in
order and without overlap, to the message minus leading whitespace; and the
two spec examples hold: `tokenize("hi there", "word") = ["hi ", "there"]`
and `tokenize("hi", "char") = ["h", "i"]`. -/
theorem C8_word_mode_tokens :
    (∀ (msg : List Char), ∀ t ∈ tokenize msg Mode.word,
      ∃ w s, t = w ++ s ∧ w ≠ [] ∧ (∀ c ∈ w, pyIsSpace c = false) ∧
        (∀ c ∈ s, pyIsSpace c = true)) ∧
    (∀ (msg : List Char),
      (tokenize msg Mode.word).flatten = msg.dropWhile pyIsSpace) ∧
    tokenize (['h', 'i', Char.ofNat 32] ++ ['t', 'h', 'e', 'r', 'e'])
      Mode.word = [['h', 'i', Char.ofNat 32], ['t', 'h', 'e', 'r', 'e']] ∧
    tokenize ['h', 'i'] Mode.char = [['h'], ['i']] := by
  refine ⟨?_, findWords_flatten, by decide, by decide⟩
  intro msg t ht
  exact findWordsAux_shape msg.length msg (Nat.le_refl _) t ht

/-- C8 witness: the shape clause evaluated on the token `"hi "` of
`tokenize("hi there", "word")`. -/
theorem C8_word_mode_tokens_witness :
    ∃ w s, (['h', 'i', Char.ofNat 32] : List Char) = w ++ s ∧ w ≠ [] ∧
      (∀ c ∈ w, pyIsSpace c = false) ∧ (∀ c ∈ s, pyIsSpace c = true) :=
  C8_word_mode_tokens.1 (['h', 'i', Char.ofNat 32] ++ ['t', 'h', 'e', 'r', 'e'])
    ['h', 'i', Char.ofNat 32] (by decide)

/-! ### Claim C3 -/

/-- C3 counterexample: at speed 1.5 tokens/s the period in the program is
`int(1000 / 1.5) = 666` ms (Python `int()` truncates), while the claimed
formula `max(1, round(1000 / max(speed, ε)))` gives 667 ms. -/
theorem C3_counterexample :
    intervalMs (3/2) ≠ max 1 (round ((1000 : ℚ) / max (3/2) (1/100))) := by
  have h1 : max (3/2 : ℚ) (1/100) = 3/2 := by norm_num
  have h2 : ⌊(1000 : ℚ) / (3/2)⌋ = (666 : ℤ) :=
    Int.floor_eq_iff.mpr (by norm_num)
  have h3 : round ((1000 : ℚ) / (3/2)) = (667 : ℤ) := by
    rw [round_eq]
    exact Int.floor_eq_iff.mpr (by norm_num)
  rw [intervalMs, h1, h2, h3]
  decide

/-- C3 (amended): the recurring timer period is
`max(1, ⌊1000 / max(speed, 0.01)⌋)` ms — truncating division, epsilon 0.01 —
in exact rational arithmetic; non-positive speeds are clamped to 0.01, giving
a 100000 ms period; the period is always at least 1 ms; and when the token
sequence is nonempty `start_animation` schedules the recurring timer with
exactly this period. -/
theorem C3_timer_period (speed : ℚ) (measure : List Char → ℤ)
    (w : MessageWindow) :
    intervalMs speed = max 1 ⌊(1000 : ℚ) / max speed (1/100)⌋ ∧
    (speed ≤ 0 → intervalMs speed = 100000) ∧
    1 ≤ intervalMs speed ∧
    (w.tokens ≠ [] → w.args.speed = speed →
      (start_animation measure w).2.1 = some (intervalMs speed)) := by
  refine ⟨rfl, ?_, le_max_left _ _, ?_⟩
  · intro h
    have hmax : max speed (1/100) = 1/100 :=
      max_eq_right (le_trans h (by norm_num))
    rw [intervalMs, hmax]
    norm_num
  · intro h hs
    rw [start_animation, if_neg h, hs]

/-- Concrete configuration used to exercise the timer-period claim. -/
def c3Args : Args :=
  { message := ['h', 'i']
    mode := .char
    speed := 0
    exit_after := 1
    reveal_position := .leftToCenter
    all_monitors := true }

/-- Concrete window (speed 0, two tokens) for the timer-period claim. -/
def c3Window : MessageWindow := initWindow (fun _ => 0) c3Args false

/-- C3 witness: at speed 0 the clamped period is 100000 ms and
`start_animation` schedules it. -/
theorem C3_timer_period_witness :
    intervalMs 0 = 100000 ∧
      (start_animation (fun _ => 0) c3Window).2.1 = some (intervalMs 0) :=
  ⟨(C3_timer_period 0 (fun _ => 0) c3Window).2.1 (by norm_num),
    (C3_timer_period 0 (fun _ => 0) c3Window).2.2.2 (by decide) rfl⟩

/-! ### Tick lemmas -/

theorem tick_tokens (measure : List Char → ℤ) (w : MessageWindow) :
    (tick measure w).1.tokens = w.tokens := by
  unfold tick
  dsimp only
  split
  · rw [scheduleExitIfNeeded_tokens]
    rfl
  · split
    · rw [scheduleExitIfNeeded_tokens]
      rfl
    · rfl

theorem tick_step (measure : List Char → ℤ) (w : MessageWindow)
    (h : w.index < w.tokens.length) :
    (tick measure w).1.index = w.index + 1 ∧
      (tick measure w).1.current_text = w.current_text ++ w.tokens.getD w.index [] ∧
      (tick measure w).2.1 = decide (w.index + 1 < w.tokens.length) := by
  unfold tick
  dsimp only
  rw [if_neg (Nat.not_le.mpr h)]
  by_cases h2 : w.tokens.length ≤ w.index + 1
  · rw [if_pos h2]
    refine ⟨?_, ?_, ?_⟩
    · rw [scheduleExitIfNeeded_index]
      rfl
    · rw [scheduleExitIfNeeded_text]
      rfl
    · simp [Nat.not_lt.mpr h2]
  · rw [if_neg h2]
    exact ⟨rfl, rfl, by simp [Nat.lt_of_not_le h2]⟩

theorem tick_done (measure : List Char → ℤ) (w : MessageWindow)
    (h : w.tokens.length ≤ w.index) :
    (tick measure w).2.1 = false ∧ (tick measure w).1.index = w.index ∧
      (tick measure w).1.current_text = w.current_text := by
  unfold tick
  dsimp only
  rw [if_pos h]
  refine ⟨rfl, ?_, ?_⟩
  · rw [scheduleExitIfNeeded_index]
    rfl
  · rw [scheduleExitIfNeeded_text]
    rfl

theorem flatten_take_succ (T : List (List Char)) (k : Nat)
    (h : k < T.length) :
    (T.take (k + 1)).flatten = (T.take k).flatten ++ T.getD k [] := by
  rw [List.take_succ, List.flatten_append]
  simp [List.getD, List.getElem?_eq_getElem h]

theorem iterTicks_spec (measure : List Char → ℤ) (w0 : MessageWindow)
    (h0 : w0.index = 0) (ht : w0.current_text = []) :
    ∀ k, k ≤ w0.tokens.length →
      (iterTicks measure k w0).index = k ∧
        (iterTicks measure k w0).current_text = (w0.tokens.take k).flatten ∧
        (iterTicks measure k w0).tokens = w0.tokens := by
  intro k
  induction k with
  | zero =>
    intro _
    exact ⟨h0, by simpa [iterTicks] using ht, rfl⟩
  | succ k ih =>
    intro hk
    obtain ⟨hi, hc, htok⟩ := ih (Nat.le_of_succ_le hk)
    have hlt : (iterTicks measure k w0).index <
        (iterTicks measure k w0).tokens.length := by
      rw [hi, htok]
      exact Nat.lt_of_succ_le hk
    obtain ⟨si, sc, _⟩ := tick_step measure (iterTicks measure k w0) hlt
    refine ⟨?_, ?_, ?_⟩
    · rw [iterTicks, si, hi]
    · rw [iterTicks, sc, hc, hi, htok,
        flatten_take_succ w0.tokens k (Nat.lt_of_succ_le hk)]
    · rw [iterTicks, tick_tokens, htok]

/-! ### Claim C2 -/

/-- C2: starting from index 0 with empty accumulated text, after each of the
first `N = length tokens` timer firings the index equals the number of
firings and the accumulated text is the concatenation of `tokens[0:index]`;
the `k+1`-st firing returns `True` to the recurring timer exactly while
tokens remain (so the `N`-th firing returns `False`: exactly `N` ticks run
before `Done`); a tick never decreases the index nor pushes it beyond `N`;
and once the index has reached `N`, a tick performs no processing: it
returns `False` (the timer self-cancels) and leaves index and text
unchanged. -/
theorem C2_reveal_controller (measure : List Char → ℤ) (w0 : MessageWindow)
    (h0 : w0.index = 0) (ht : w0.current_text = []) :
    (∀ k, k ≤ w0.tokens.length →
      (iterTicks measure k w0).index = k ∧
        (iterTicks measure k w0).current_text = (w0.tokens.take k).flatten) ∧
    (∀ k, k < w0.tokens.length →
      (tick measure (iterTicks measure k w0)).2.1 =
        decide (k + 1 < w0.tokens.length)) ∧
    (∀ w : MessageWindow, w.index ≤ (tick measure w).1.index) ∧
    (∀ w : MessageWindow, w.index ≤ w.tokens.length →
      (tick measure w).1.index ≤ w.tokens.length) ∧
    (∀ w : MessageWindow, w.tokens.length ≤ w.index →
      (tick measure w).2.1 = false ∧ (tick measure w).1.index = w.index ∧
        (tick measure w).1.current_text = w.current_text) := by
  refine ⟨?_, ?_, ?_, ?_, fun w h => tick_done measure w h⟩
  · intro k hk
    obtain ⟨hi, hc, _⟩ := iterTicks_spec measure w0 h0 ht k hk
    exact ⟨hi, hc⟩
  · intro k hk
    obtain ⟨hi, _, htok⟩ := iterTicks_spec measure w0 h0 ht k (Nat.le_of_lt hk)
    have hlt : (iterTicks measure k w0).index <
        (iterTicks measure k w0).tokens.length := by
      rw [hi, htok]
      exact hk
    obtain ⟨_, _, hb⟩ := tick_step measure (iterTicks measure k w0) hlt
    rw [hb, hi, htok]
  · intro w
    by_cases h : w.tokens.length ≤ w.index
    · rw [(tick_done measure w h).2.1]
    · rw [(tick_step measure w (Nat.lt_of_not_le h)).1]
      exact Nat.le_succ _
  · intro w h
    by_cases hlt : w.index < w.tokens.length
    · rw [(tick_step measure w hlt).1]
      exact Nat.succ_le_of_lt hlt
    · rw [(tick_done measure w (Nat.le_of_not_lt hlt)).2.1]
      exact h

/-- Concrete configuration for the reveal-controller claim. -/
def c2Args : Args :=
  { message := ['h', 'i']
    mode := .char
    speed := 15
    exit_after := 1
    reveal_position := .leftToCenter
    all_monitors := true }

/-- Concrete two-token window for the reveal-controller claim. -/
def c2Window : MessageWindow := initWindow (fun _ => 0) c2Args false

/-- C2 witness: the controller invariants instantiated on a concrete
two-token window. -/
theorem C2_reveal_controller_witness :
    (∀ k, k ≤ c2Window.tokens.length →
      (iterTicks (fun _ => 0) k c2Window).index = k ∧
        (iterTicks (fun _ => 0) k c2Window).current_text =
          (c2Window.tokens.take k).flatten) ∧
    (∀ k, k < c2Window.tokens.length →
      (tick (fun _ => 0) (iterTicks (fun _ => 0) k c2Window)).2.1 =
        decide (k + 1 < c2Window.tokens.length)) ∧
    (∀ w : MessageWindow, w.index ≤ (tick (fun _ => 0) w).1.index) ∧
    (∀ w : MessageWindow, w.index ≤ w.tokens.length →
      (tick (fun _ => 0) w).1.index ≤ w.tokens.length) ∧
    (∀ w : MessageWindow, w.tokens.length ≤ w.index →
      (tick (fun _ => 0) w).2.1 = false ∧
        (tick (fun _ => 0) w).1.index = w.index ∧
        (tick (fun _ => 0) w).1.current_text = w.current_text) :=
  C2_reveal_controller (fun _ => 0) c2Window rfl rfl

/-! ### Exit-scheduling lemmas -/

theorem scheduleExitIfNeeded_nonpos (w : MessageWindow)
    (h : w.args.exit_after ≤ 0) : scheduleExitIfNeeded w = (w, none) := by
  unfold scheduleExitIfNeeded
  rw [if_pos (Or.inl h)]

theorem scheduleExitIfNeeded_flagged (w : MessageWindow)
    (h : w.exit_scheduled = true) : scheduleExitIfNeeded w = (w, none) := by
  unfold scheduleExitIfNeeded
  rw [if_pos (Or.inr (by simp [h]))]

theorem scheduleExitIfNeeded_fires (w : MessageWindow)
    (h : 0 < w.args.exit_after) (hf : w.exit_scheduled = false) :
    scheduleExitIfNeeded w =
      ({ w with exit_scheduled := true }, some ⌊w.args.exit_after * 1000⌋) := by
  unfold scheduleExitIfNeeded
  rw [if_neg]
  rintro (hle | hfl)
  · exact absurd h (not_lt.mpr hle)
  · rw [hf] at hfl
    exact Bool.false_ne_true hfl

theorem iterScheduleExit_nonpos (w : MessageWindow)
    (h : w.args.exit_after ≤ 0) :
    ∀ n, iterScheduleExit w n = (w, []) := by
  intro n
  induction n with
  | zero => rfl
  | succ n ih =>
    rw [iterScheduleExit, ih, scheduleExitIfNeeded_nonpos w h]
    rfl

theorem iterScheduleExit_flagged (w : MessageWindow)
    (h : w.exit_scheduled = true) :
    ∀ n, iterScheduleExit w n = (w, []) := by
  intro n
  induction n with
  | zero => rfl
  | succ n ih =>
    rw [iterScheduleExit, ih, scheduleExitIfNeeded_flagged w h]
    rfl

theorem iterScheduleExit_pos (w : MessageWindow)
    (h : 0 < w.args.exit_after) (hf : w.exit_scheduled = false) :
    ∀ n, 1 ≤ n → iterScheduleExit w n =
      ({ w with exit_scheduled := true }, [⌊w.args.exit_after * 1000⌋]) := by
  intro n
  induction n with
  | zero => intro hn; exact absurd hn (by decide)
  | succ n ih =>
    intro _
    cases Nat.eq_zero_or_pos n with
    | inl h0 =>
      subst h0
      rw [iterScheduleExit, show iterScheduleExit w 0 = (w, []) from rfl,
        scheduleExitIfNeeded_fires w h hf]
      rfl
    | inr hpos =>
      rw [iterScheduleExit, ih hpos, scheduleExitIfNeeded_flagged _ rfl]
      rfl

/-! ### Claim C6 -/

/-- C6: with exit-after ≤ 0 no exit timer is ever scheduled, however many
times scheduling is attempted; across any number of attempts at most one
timer is scheduled (the `exit_scheduled` flag blocks repeats), every
scheduled timer has delay `int(exit_after * 1000)` ms, and with
exit-after > 0 and the flag initially clear exactly one such timer is
scheduled; the timer callback `_exit` requests application shutdown and
returns `False` (one-shot). -/
theorem C6_exit_scheduling (w : MessageWindow) (n : Nat) :
    (w.args.exit_after ≤ 0 → (iterScheduleExit w n).2 = []) ∧
    (iterScheduleExit w n).2.length ≤ 1 ∧
    (∀ d ∈ (iterScheduleExit w n).2, d = ⌊w.args.exit_after * 1000⌋) ∧
    (0 < w.args.exit_after → w.exit_scheduled = false → 1 ≤ n →
      (iterScheduleExit w n).2 = [⌊w.args.exit_after * 1000⌋]) ∧
    (∀ b, (windowExit b).2 = false) ∧
    (windowExit true).1 = [AppEffect.quit] := by
  have hcases : (iterScheduleExit w n).2 = [] ∨
      (iterScheduleExit w n).2 = [⌊w.args.exit_after * 1000⌋] := by
    by_cases hle : w.args.exit_after ≤ 0
    · exact Or.inl (by rw [iterScheduleExit_nonpos w hle n])
    · by_cases hfl : w.exit_scheduled = true
      · exact Or.inl (by rw [iterScheduleExit_flagged w hfl n])
      · have hf : w.exit_scheduled = false := Bool.eq_false_iff.mpr hfl
        cases Nat.eq_zero_or_pos n with
        | inl h0 => exact Or.inl (by rw [h0]; rfl)
        | inr hpos =>
          exact Or.inr
            (by rw [iterScheduleExit_pos w (lt_of_not_le hle) hf n hpos])
  refine ⟨?_, ?_, ?_, ?_, fun b => rfl, rfl⟩
  · intro hle
    rw [iterScheduleExit_nonpos w hle n]
  · rcases hcases with h | h <;> rw [h] <;> simp
  · intro d hd
    rcases hcases with h | h <;> rw [h] at hd
    · exact absurd hd (List.not_mem_nil d)
    · rcases List.mem_singleton.mp hd with rfl
      rfl
  · intro hpos hf hn
    rw [iterScheduleExit_pos w hpos hf n hn]

/-- Concrete configuration (exit-after 0.5 s) for the exit-scheduling claim. -/
def c6Args : Args :=
  { message := ['h', 'i']
    mode := .char
    speed := 15
    exit_after := 1/2
    reveal_position := .leftToCenter
    all_monitors := true }

/-- Concrete window for the exit-scheduling claim. -/
def c6Window : MessageWindow := initWindow (fun _ => 0) c6Args false

/-- C6 witness: with exit-after 0.5 s and a clear flag, two scheduling
attempts produce exactly one 500 ms timer. -/
theorem C6_exit_scheduling_witness :
    (iterScheduleExit c6Window 2).2 = [⌊c6Window.args.exit_after * 1000⌋] :=
  (C6_exit_scheduling c6Window 2).2.2.2.1 (by norm_num [c6Window, initWindow, c6Args])
    rfl (by norm_num)

/-! ### Claim C7 -/

/-- C7: when the token sequence is empty, `start_animation` schedules no
recurring timer, leaves the accumulated text empty and the index at 0, and
applies the final (`is_animation_done = True`) layout immediately. -/
theorem C7_empty_tokens (measure : List Char → ℤ) (args : Args) (ls : Bool)
    (h : tokenize args.message args.mode = []) :
    (start_animation measure (initWindow measure args ls)).2.1 = none ∧
    (start_animation measure (initWindow measure args ls)).1.current_text = [] ∧
    (start_animation measure (initWindow measure args ls)).1.index = 0 ∧
    (start_animation measure (initWindow measure args ls)).1.label =
      applyRevealLabel measure args (initWindow measure args ls).label true := by
  have htok : (initWindow measure args ls).tokens = [] := h
  rw [start_animation, if_pos htok]
  refine ⟨rfl, ?_, ?_, ?_⟩
  · dsimp only
    rw [scheduleExitIfNeeded_text]
    rfl
  · dsimp only
    rw [scheduleExitIfNeeded_index]
    rfl
  · dsimp only
    rw [scheduleExitIfNeeded_label]
    rfl

/-- Concrete empty-message configuration for the empty-tokens claim. -/
def c7Args : Args :=
  { message := []
    mode := .char
    speed := 15
    exit_after := 1
    reveal_position := .leftToCenter
    all_monitors := true }

/-- C7 witness: the empty message yields no timer, empty text, index 0 and
the final layout. -/
theorem C7_empty_tokens_witness :
    (start_animation (fun _ => 0) (initWindow (fun _ => 0) c7Args false)).2.1 = none ∧
    (start_animation (fun _ => 0) (initWindow (fun _ => 0) c7Args false)).1.current_text = [] ∧
    (start_animation (fun _ => 0) (initWindow (fun _ => 0) c7Args false)).1.index = 0 ∧
    (start_animation (fun _ => 0) (initWindow (fun _ => 0) c7Args false)).1.label =
      applyRevealLabel (fun _ => 0) c7Args
        (initWindow (fun _ => 0) c7Args false).label true :=
  C7_empty_tokens (fun _ => 0) c7Args false rfl

/-! ### Claim C9 -/

/-- C9: under `left-to-center`, while animating the label size request
reserves exactly the measured pixel width of the full final message (when
that measured width is positive — the code skips the reservation otherwise),
and on reaching `Done` the size request is reset to natural sizing; under
`center` and `left` the size request is natural sizing in every animation
state. -/
theorem C9_reveal_position_policy (measure : List Char → ℤ)
    (w : MessageWindow) :
    (w.args.reveal_position = RevealPosition.leftToCenter →
      (0 < measure w.args.message →
        (apply_reveal_position measure w false).label.sizeRequest =
          (measure w.args.message, -1)) ∧
      (apply_reveal_position measure w true).label.sizeRequest = (-1, -1)) ∧
    ((w.args.reveal_position = RevealPosition.center ∨
        w.args.reveal_position = RevealPosition.left) →
      ∀ d : Bool,
        (apply_reveal_position measure w d).label.sizeRequest = (-1, -1)) := by
  refine ⟨fun hltc => ⟨fun hw => ?_, ?_⟩, fun hcl d => ?_⟩
  · simp [apply_reveal_position, applyRevealLabel, hltc, hw]
  · simp [apply_reveal_position, applyRevealLabel, hltc]
  · rcases hcl with h | h <;> cases d <;>
      simp [apply_reveal_position, applyRevealLabel, h]

/-- Concrete left-to-center configuration for the reveal-position claim. -/
def c9Args : Args :=
  { message := ['h', 'i']
    mode := .char
    speed := 15
    exit_after := 1
    reveal_position := .leftToCenter
    all_monitors := true }

/-- Concrete window (measured width 10) for the reveal-position claim. -/
def c9Window : MessageWindow := initWindow (fun _ => 10) c9Args false

/-- C9 witness: with measured width 10, animating reserves width 10 and
`Done` clears the reservation. -/
theorem C9_reveal_position_policy_witness :
    (apply_reveal_position (fun _ => (10 : ℤ)) c9Window false).label.sizeRequest
        = (10, -1) ∧
      (apply_reveal_position (fun _ => (10 : ℤ)) c9Window true).label.sizeRequest
        = (-1, -1) :=
  ⟨((C9_reveal_position_policy (fun _ => (10 : ℤ)) c9Window).1 rfl).1 (by decide),
    ((C9_reveal_position_policy (fun _ => (10 : ℤ)) c9Window).1 rfl).2⟩

/-! ### Claim C10 -/

/-- C10: word-mode tokens concatenate to the message minus its leading
whitespace; hence for a non-empty all-whitespace message the token sequence
is empty and starting the animation reaches `Done` with zero ticks: no
recurring timer, accumulated text `""`, and an empty label text. -/
theorem C10_word_whitespace (args : Args) (measure : List Char → ℤ)
    (ls : Bool) :
    (tokenize args.message Mode.word).flatten =
      args.message.dropWhile pyIsSpace ∧
    (args.mode = Mode.word → args.message ≠ [] →
      (∀ c ∈ args.message, pyIsSpace c = true) →
      tokenize args.message args.mode = [] ∧
      (start_animation measure (initWindow measure args ls)).2.1 = none ∧
      (start_animation measure (initWindow measure args ls)).1.current_text = [] ∧
      (start_animation measure (initWindow measure args ls)).1.label.text = []) := by
  refine ⟨findWords_flatten args.message, fun hmode _ hsp => ?_⟩
  have hz : tokenize args.message args.mode = [] := by
    rw [hmode]
    exact findWordsAux_all_space args.message.length args.message
      (Nat.le_refl _) hsp
  have htok : (initWindow measure args ls).tokens = [] := hz
  refine ⟨hz, ?_, ?_, ?_⟩
  · rw [start_animation, if_pos htok]
  · rw [start_animation, if_pos htok]
    dsimp only
    rw [scheduleExitIfNeeded_text]
    rfl
  · rw [start_animation, if_pos htok]
    dsimp only
    rw [scheduleExitIfNeeded_label]
    show (applyRevealLabel measure args
      (initWindow measure args ls).label true).text = []
    rw [applyRevealLabel_text,
      show (initWindow measure args ls).label =
        applyRevealLabel measure args newLabel false from rfl,
      applyRevealLabel_text]
    rfl

/-- Concrete all-whitespace configuration (message is one space, word mode)
for the whitespace-message claim. -/
def c10Args : Args :=
  { message := [Char.ofNat 32]
    mode := .word
    speed := 15
    exit_after := 1
    reveal_position := .leftToCenter
    all_monitors := true }

/-- C10 witness: the one-space word-mode message has no tokens and its
animation ends immediately with empty text. -/
theorem C10_word_whitespace_witness :
    tokenize c10Args.message c10Args.mode = [] ∧
    (start_animation (fun _ => 0) (initWindow (fun _ => 0) c10Args false)).2.1 = none ∧
    (start_animation (fun _ => 0) (initWindow (fun _ => 0) c10Args false)).1.current_text = [] ∧
    (start_animation (fun _ => 0) (initWindow (fun _ => 0) c10Args false)).1.label.text = [] :=
  (C10_word_whitespace c10Args (fun _ => 0) false).2 rfl (by decide) (by decide)

/-! ### Orchestrator lemmas -/

theorem buildLoop_fail (ctx : OrchCtx) (hls : ctx.layerShellAvailable = true) :
    ∀ (slots : List (Option Nat)) (s : AppState) (nid : Nat),
      (∃ m, some m ∈ slots ∧ ctx.anchorOk m = false) →
      (buildLoop ctx slots s nid).1.windows = [] ∧
      (∀ w ∈ s.windows, w.wid ∈ (buildLoop ctx slots s nid).1.destroyed) ∧
      (∀ w ∈ (buildLoop ctx slots s nid).1.created,
        w ∈ s.created ∨ w.wid ∈ (buildLoop ctx slots s nid).1.destroyed) := by
  intro slots
  induction slots with
  | nil =>
    intro s nid hex
    rcases hex with ⟨m, hm, _⟩
    exact absurd hm (List.not_mem_nil _)
  | cons slot rest ih =>
    intro s nid hex
    cases slot with
    | none =>
      refine ih s nid ?_
      rcases hex with ⟨m, hm, hok⟩
      rcases List.mem_cons.mp hm with heq | hmem
      · exact absurd heq (by simp)
      · exact ⟨m, hmem, hok⟩
    | some m0 =>
      by_cases hok : ctx.anchorOk m0 = true
      · have hw : (newOrchWindow ctx (some m0) nid).layer_shell_enabled = true := by
          simp [newOrchWindow, hls, hok]
        have hex2 : ∃ m, some m ∈ rest ∧ ctx.anchorOk m = false := by
          rcases hex with ⟨m, hm, hmf⟩
          rcases List.mem_cons.mp hm with heq | hmem
          · have : m = m0 := by simpa using heq
            subst this
            exact absurd hok (by simp [hmf])
          · exact ⟨m, hmem, hmf⟩
        simp only [buildLoop]
        rw [if_neg (by simp [hw])]
        obtain ⟨h1, h2, h3⟩ := ih _ _ hex2
        refine ⟨h1, ?_, ?_⟩
        · intro w' hw'
          exact h2 w' (List.mem_append_left _ hw')
        · intro w' hw'
          rcases h3 w' hw' with hin | hdest
          · rcases List.mem_append.mp hin with hself | hnew
            · exact Or.inl hself
            · exact Or.inr (h2 w' (List.mem_append_right _ hnew))
          · exact Or.inr hdest
      · have hokf : ctx.anchorOk m0 = false := Bool.eq_false_iff.mpr hok
        have hw : (newOrchWindow ctx (some m0) nid).layer_shell_enabled = false := by
          simp [newOrchWindow, hls, hokf]
        simp only [buildLoop]
        rw [if_pos hw]
        refine ⟨rfl, ?_, ?_⟩
        · intro w' hw'
          exact List.mem_append_right _
            (List.mem_cons_of_mem _ (List.mem_map_of_mem OrchWindow.wid hw'))
        · intro w' hw'
          rcases List.mem_append.mp hw' with h | h
          · exact Or.inl h
          · have heqw : w' = newOrchWindow ctx (some m0) nid := by simpa using h
            subst heqw
            exact Or.inr (List.mem_append_right _ (List.mem_cons_self _ _))

theorem buildLoop_animation_started (ctx : OrchCtx) :
    ∀ (slots : List (Option Nat)) (s : AppState) (nid : Nat),
      (buildLoop ctx slots s nid).1.animation_started = s.animation_started := by
  intro slots
  induction slots with
  | nil => intro s nid; rfl
  | cons slot rest ih =>
    intro s nid
    cases slot with
    | none => exact ih s nid
    | some m0 =>
      simp only [buildLoop]
      split
      · rfl
      · exact ih _ _

theorem build_windows_of_nonempty (ctx : OrchCtx) (s : AppState)
    (h : s.windows ≠ []) : build_windows ctx s = s := by
  rw [build_windows, if_pos h]

theorem build_windows_started (ctx : OrchCtx) (s : AppState) :
    (build_windows ctx s).animation_started = s.animation_started := by
  rw [build_windows]
  by_cases h0 : s.windows ≠ []
  · rw [if_pos h0]
  · rw [if_neg h0]
    dsimp only
    by_cases hc : (ctx.all_monitors && ctx.layerShellAvailable &&
        ctx.displayAvailable) = true
    · rw [if_pos hc]
      by_cases hw : (buildLoop ctx ctx.monitorSlots s 0).1.windows = []
      · rw [if_pos hw]
        exact buildLoop_animation_started ctx ctx.monitorSlots s 0
      · rw [if_neg hw]
        exact buildLoop_animation_started ctx ctx.monitorSlots s 0
    · rw [if_neg hc]
      dsimp only
      split <;> rfl

theorem build_windows_nonempty (ctx : OrchCtx) (s : AppState) :
    (build_windows ctx s).windows ≠ [] := by
  rw [build_windows]
  by_cases h0 : s.windows ≠ []
  · rw [if_pos h0]
    exact h0
  · rw [if_neg h0]
    dsimp only
    by_cases hc : (ctx.all_monitors && ctx.layerShellAvailable &&
        ctx.displayAvailable) = true
    · rw [if_pos hc]
      by_cases hw : (buildLoop ctx ctx.monitorSlots s 0).1.windows = []
      · rw [if_pos hw]
        simp
      · rw [if_neg hw]
        exact hw
    · rw [if_neg hc]
      dsimp only
      by_cases hw : s.windows = []
      · rw [if_pos hw]
        simp
      · rw [if_neg hw]
        exact hw

/-! ### Claim C4 -/

/-- C4: in the all-monitors path, if layer-shell anchoring fails for some
enumerated display, the final window set is exactly one fallback window with
no monitor and no layer-shell, and every window created during the pass was
either destroyed or is that fallback window — no partially anchored set
survives. -/
theorem C4_all_or_nothing (ctx : OrchCtx)
    (ha : ctx.all_monitors = true) (hls : ctx.layerShellAvailable = true)
    (hd : ctx.displayAvailable = true)
    (hfail : ∃ m, some m ∈ ctx.monitorSlots ∧ ctx.anchorOk m = false) :
    ∃ fw, (build_windows ctx initAppState).windows = [fw] ∧
      fw.layer_shell_enabled = false ∧ fw.monitor = none ∧
      ∀ w ∈ (build_windows ctx initAppState).created,
        w = fw ∨ w.wid ∈ (build_windows ctx initAppState).destroyed := by
  obtain ⟨h1, _, h3⟩ :=
    buildLoop_fail ctx hls ctx.monitorSlots initAppState 0 hfail
  have hcond : (ctx.all_monitors && ctx.layerShellAvailable &&
      ctx.displayAvailable) = true := by
    rw [ha, hls, hd]
    rfl
  rw [build_windows, if_neg (by simp [initAppState])]
  dsimp only
  rw [if_pos hcond, if_pos h1]
  refine ⟨newOrchWindow ctx none
    (buildLoop ctx ctx.monitorSlots initAppState 0).2, rfl, rfl, rfl, ?_⟩
  intro w hw
  rcases List.mem_append.mp hw with h | h
  · rcases h3 w h with hin | hdest
    · exact absurd hin (List.not_mem_nil _)
    · exact Or.inr hdest
  · exact Or.inl (by simpa using h)

/-- Concrete orchestrator environment: three monitors, anchoring fails on
the second. -/
def c4Ctx : OrchCtx :=
  { all_monitors := true
    layerShellAvailable := true
    displayAvailable := true
    monitorSlots := [some 0, some 1, some 2]
    anchorOk := fun m => decide (m ≠ 1) }

/-- C4 witness: with three monitors and a failure on the second, the end
state is exactly one unanchored fallback window and no leaked windows. -/
theorem C4_all_or_nothing_witness :
    ∃ fw, (build_windows c4Ctx initAppState).windows = [fw] ∧
      fw.layer_shell_enabled = false ∧ fw.monitor = none ∧
      ∀ w ∈ (build_windows c4Ctx initAppState).created,
        w = fw ∨ w.wid ∈ (build_windows c4Ctx initAppState).destroyed :=
  C4_all_or_nothing c4Ctx rfl rfl rfl ⟨1, by decide, by decide⟩

/-! ### Claim C5 -/

/-- C5: activating twice is idempotent — the second `do_activate` leaves the
state (in particular the window list) unchanged and starts no animation
(its list of `start_animation` invocations is empty). -/
theorem C5_activation_idempotent (ctx : OrchCtx) :
    (do_activate ctx (do_activate ctx initAppState).1).1 =
      (do_activate ctx initAppState).1 ∧
    (do_activate ctx (do_activate ctx initAppState).1).1.windows =
      (do_activate ctx initAppState).1.windows ∧
    (do_activate ctx (do_activate ctx initAppState).1).2.2 = [] := by
  have hs1ne : (build_windows ctx initAppState).windows ≠ [] :=
    build_windows_nonempty ctx initAppState
  have hflag : (build_windows ctx initAppState).animation_started = false :=
    build_windows_started ctx initAppState
  have hfirst : (do_activate ctx initAppState).1 =
      { build_windows ctx initAppState with animation_started := true } := by
    rw [do_activate]
    dsimp only
    rw [if_neg (by simp [hflag])]
  have ha1w : ({ build_windows ctx initAppState with
      animation_started := true } : AppState).windows ≠ [] := hs1ne
  have key : do_activate ctx (do_activate ctx initAppState).1 =
      ((do_activate ctx initAppState).1,
        (do_activate ctx initAppState).1.windows.map OrchWindow.wid, []) := by
    rw [hfirst, do_activate]
    dsimp only
    rw [build_windows_of_nonempty _ _ ha1w, if_pos rfl]
  rw [key]
  exact ⟨rfl, rfl, rfl⟩
